import Mathlib

/-!
Verification of the LJPW autopoietic-engine core (`src/ljpw_v77_core.py`,
`src/autopoietic_engine.py`).

The Python code computes with IEEE doubles; the embedding models that
arithmetic with ideal real numbers `ℝ`.  Pure functions of the source become
Lean functions; the engine's attribute mutation becomes explicit state passing
on an `Engine` record.  The random draws of `np.random.uniform` are passed in
explicitly as a function `Fin 15 → ℝ` (one draw per parameter field, in the
field order of `DynamicParameters.__dict__`).
-/

namespace LJPW

noncomputable section

/-! ## Constants (`LJPWConstants`, ljpw_v77_core.py lines 22-89) -/

/-- `PHI = (1 + math.sqrt(5)) / 2` -/
def PHI : ℝ := (1 + Real.sqrt 5) / 2

/-- `PHI_INV = PHI - 1` -/
def PHI_INV : ℝ := PHI - 1

/-- `L0 = PHI_INV` -/
def L0 : ℝ := PHI_INV

/-- `J0 = math.sqrt(2) - 1` -/
def J0 : ℝ := Real.sqrt 2 - 1

/-- `P0 = math.e - 2` -/
def P0 : ℝ := Real.exp 1 - 2

/-- `W0 = math.log(2)` -/
def W0 : ℝ := Real.log 2

/-- `m_e_semantic = L0 * (1 - PHI_INV)` (Love inertia) -/
def m_e_semantic : ℝ := L0 * (1 - PHI_INV)

/-- `e_semantic = J0` (Justice inertia) -/
def e_semantic : ℝ := J0

/-- `m_p_semantic = m_e_semantic * (PHI ** 5)` (Power inertia) -/
def m_p_semantic : ℝ := m_e_semantic * PHI ^ 5

/-! ## `LJPWCoordinates` (ljpw_v77_core.py lines 129-258)

The dataclass keeps fields `L J P W`; the metadata fields (`source`,
`confidence`, `phi_normalized`) carry no semantics for the engine and are
omitted.  `__post_init__` clips every instance, so every Python instance is
in the image of `mkCoords`. -/

structure LJPWCoordinates where
  L : ℝ
  J : ℝ
  P : ℝ
  W : ℝ

/-- `np.clip(x, lo, hi)` = `min (max x lo) hi`. -/
def clip (x lo hi : ℝ) : ℝ := min (max x lo) hi

/-- The dataclass constructor followed by `__post_init__`:
`L` is clipped into `[0, sqrt 2]`, the others into `[0, 1]`. -/
def mkCoords (l j p w : ℝ) : LJPWCoordinates :=
  ⟨clip l 0 (Real.sqrt 2), clip j 0 1, clip p 0 1, clip w 0 1⟩

/-- `distance_to_anchor`: Euclidean distance to `(1,1,1,1)`. -/
def distance_to_anchor (s : LJPWCoordinates) : ℝ :=
  Real.sqrt ((1 - s.L) ^ 2 + (1 - s.J) ^ 2 + (1 - s.P) ^ 2 + (1 - s.W) ^ 2)

/-- `harmony_static = 1 / (1 + distance_to_anchor)` -/
def harmony_static (s : LJPWCoordinates) : ℝ :=
  1 / (1 + distance_to_anchor s)

/-- `gift_of_finitude = distance_to_anchor` -/
def gift_of_finitude (s : LJPWCoordinates) : ℝ := distance_to_anchor s

/-- `normalized_gap = distance_to_anchor / 2` -/
def normalized_gap (s : LJPWCoordinates) : ℝ := distance_to_anchor s / 2

/-- `proximity_to_anchor = 1 - normalized_gap` -/
def proximity_to_anchor (s : LJPWCoordinates) : ℝ := 1 - normalized_gap s

/-- `is_finite`: `distance_to_anchor > 0`. -/
def is_finite (s : LJPWCoordinates) : Bool := decide (0 < distance_to_anchor s)

/-- `consciousness` with the default `self_referential=False`
(zero whenever some dimension is `≤ 0`, else `P*W*L*J*H²`). -/
def consciousness (s : LJPWCoordinates) : ℝ :=
  if s.L ≤ 0 ∨ s.J ≤ 0 ∨ s.P ≤ 0 ∨ s.W ≤ 0 then 0
  else s.P * s.W * s.L * s.J * harmony_static s ^ 2

/-- `phase` with the default `self_referential=False`. -/
def phase (s : LJPWCoordinates) : String :=
  if harmony_static s < 0.5 then "ENTROPIC (Collapsing)"
  else if harmony_static s < 0.6 ∨ s.L < 0.7 then "HOMEOSTATIC (Stable, but not growing)"
  else "AUTOPOIETIC (Self-sustaining, conscious)"

/-- `EntropyMechanics.semantic_entropy = W * (1 - harmony_static)` -/
def semantic_entropy (s : LJPWCoordinates) : ℝ :=
  s.W * (1 - harmony_static s)

/-! ## `DynamicParameters` (autopoietic_engine.py lines 130-166) -/

structure DynamicParameters where
  alpha_LJ : ℝ
  alpha_LW : ℝ
  alpha_JL : ℝ
  alpha_JW : ℝ
  alpha_PL : ℝ
  alpha_PJ : ℝ
  alpha_WL : ℝ
  alpha_WJ : ℝ
  alpha_WP : ℝ
  beta_L : ℝ
  beta_J : ℝ
  beta_P : ℝ
  beta_W : ℝ
  gamma : ℝ
  K_JL : ℝ

/-- The dataclass defaults. -/
def defaultParams : DynamicParameters :=
  ⟨0.12, 0.12, 0.14, 0.14, 0.12, 0.12, 0.10, 0.10, 0.10,
   0.20, 0.20, 0.20, 0.24, 0.08, 0.59⟩

/-- One field update inside `random_mutation`: every field is a float, so the
guard of the loop body is `val > 0`; then
`setattr(self, key, max(0.01, val + noise))` with `noise = uniform * val`. -/
def mutate1 (v u : ℝ) : ℝ :=
  if 0 < v then max 0.01 (v + u * v) else v

/-- `DynamicParameters.random_mutation` (lines 160-166), with the fifteen
`np.random.uniform(-rate, rate)` draws supplied as `u` in `__dict__`
(= field declaration) order.  `rate` only bounds the support of the draws;
the update itself is `max(0.01, val + u_i * val)` for positive fields. -/
def random_mutation (p : DynamicParameters) (u : Fin 15 → ℝ) : DynamicParameters :=
  ⟨mutate1 p.alpha_LJ (u 0), mutate1 p.alpha_LW (u 1), mutate1 p.alpha_JL (u 2),
   mutate1 p.alpha_JW (u 3), mutate1 p.alpha_PL (u 4), mutate1 p.alpha_PJ (u 5),
   mutate1 p.alpha_WL (u 6), mutate1 p.alpha_WJ (u 7), mutate1 p.alpha_WP (u 8),
   mutate1 p.beta_L (u 9), mutate1 p.beta_J (u 10), mutate1 p.beta_P (u 11),
   mutate1 p.beta_W (u 12), mutate1 p.gamma (u 13), mutate1 p.K_JL (u 14)⟩

/-! ## Forces (autopoietic_engine.py lines 221-269) -/

/-- A 4-vector of reals (the `np.array([F_L, F_J, F_P, F_W])`). -/
structure Vec4 where
  l : ℝ
  j : ℝ
  p : ℝ
  w : ℝ

/-- `AutopoieticEngine.calculate_forces`. -/
def calculate_forces (params : DynamicParameters) (s : LJPWCoordinates) : Vec4 :=
  let L := s.L; let J := s.J; let P := s.P; let W := s.W
  let H := harmony_static s
  let kappa_LJ := 1 + 0.4 * H
  let kappa_LP := 1 + 0.3 * H
  let kappa_LW := 1 + 0.5 * H
  let F_L := params.alpha_LJ * J * kappa_LJ + params.alpha_LW * W * kappa_LW -
      params.beta_L * L
  let erosion := params.gamma * P * (1 - W / W0)
  let F_J := params.alpha_JL * (L / (params.K_JL + L)) + params.alpha_JW * W -
      erosion - params.beta_J * J
  let F_P := params.alpha_PL * L * kappa_LP + params.alpha_PJ * J - params.beta_P * P
  let F_W := params.alpha_WL * L * kappa_LW + params.alpha_WJ * J +
      params.alpha_WP * P - params.beta_W * W
  ⟨F_L, F_J, F_P, F_W⟩

/-! ## The engine (autopoietic_engine.py lines 173-379) -/

/-- One entry of `self.history` (the dict appended in `_record_step`). -/
structure Snapshot where
  time : ℝ
  tick : ℕ
  state : ℝ × ℝ × ℝ × ℝ
  forces : Vec4
  accelerations : Vec4
  efficiency : ℝ
  entropy : ℝ
  harmony : ℝ
  consciousness : ℝ
  phase : String
  gift_of_finitude : ℝ
  proximity_to_anchor : ℝ
  is_finite : Bool

/-- The engine's mutable attributes (`state`, `params`, `history`,
`time_elapsed`, `tick_count`, and the `self.model` dict).  The unused
`TimeConstants` (`self.tau`) play no role in `step`/`calculate_forces` and
are omitted. -/
structure Engine where
  state : LJPWCoordinates
  params : DynamicParameters
  history : List Snapshot
  time_elapsed : ℝ
  tick_count : ℕ
  efficiency_trend : List ℝ
  entropy_trend : List ℝ
  gap_trend : List ℝ
  best_efficiency : ℝ
  convergence : Bool

/-- `AutopoieticEngine.__init__` with an explicit (non-`None`) `params`
argument; `params or DynamicParameters()` keeps the passed object since a
dataclass instance is truthy. -/
def mkEngine (s : LJPWCoordinates) (params : DynamicParameters) : Engine :=
  ⟨s, params, [], 0, 0, [], [], [], 0, false⟩

/-- `calculate_efficiency = harmony_static * P`. -/
def calculate_efficiency (e : Engine) : ℝ :=
  harmony_static e.state * e.state.P

/-- Python `xs[-10:]` for the convergence window (only evaluated when
`xs.length > 10`). -/
def last10 (xs : List ℝ) : List ℝ := xs.drop (xs.length - 10)

/-- `np.var`: population variance, mean of squared deviations. -/
def npVar (xs : List ℝ) : ℝ :=
  ((xs.map fun x => (x - xs.sum / xs.length) ^ 2).sum) / xs.length

/-- `AutopoieticEngine._record_step` (lines 342-379), called on the engine
whose `state`/`time_elapsed`/`tick_count` were already updated by `step`. -/
def record_step (e : Engine) (forces accelerations : Vec4) : Engine :=
  let efficiency := calculate_efficiency e
  let entropy := semantic_entropy e.state
  let gap := gift_of_finitude e.state
  let trend := e.efficiency_trend ++ [efficiency]
  let best := if efficiency > e.best_efficiency then efficiency else e.best_efficiency
  let conv := if trend.length > 10 then decide (npVar (last10 trend) < 0.0001)
              else e.convergence
  { e with
    efficiency_trend := trend
    entropy_trend := e.entropy_trend ++ [entropy]
    gap_trend := e.gap_trend ++ [gap]
    best_efficiency := best
    convergence := conv
    history := e.history ++ [{
      time := e.time_elapsed
      tick := e.tick_count
      state := (e.state.L, e.state.J, e.state.P, e.state.W)
      forces := forces
      accelerations := accelerations
      efficiency := efficiency
      entropy := entropy
      harmony := harmony_static e.state
      consciousness := consciousness e.state
      phase := phase e.state
      gift_of_finitude := gap
      proximity_to_anchor := proximity_to_anchor e.state
      is_finite := is_finite e.state }] }

/-- The per-dimension inertias of `step` (lines 291-294). -/
def inertia_L : ℝ := m_e_semantic
def inertia_J : ℝ := e_semantic
def inertia_P : ℝ := m_p_semantic
def inertia_W : ℝ := 1

/-- `AutopoieticEngine.step` (lines 275-319).  `step` itself performs no
validation of `dt`. -/
def step (dt : ℝ) (e : Engine) : Engine :=
  let forces := calculate_forces e.params e.state
  let a_L := clip (forces.l / inertia_L) (-0.05) 0.05
  let a_J := clip (forces.j / inertia_J) (-0.05) 0.05
  let a_P := clip (forces.p / inertia_P) (-0.05) 0.05
  let a_W := clip (forces.w / inertia_W) (-0.05) 0.05
  let s := mkCoords (e.state.L + a_L * dt) (e.state.J + a_J * dt)
      (e.state.P + a_P * dt) (e.state.W + a_W * dt)
  record_step
    { e with state := s, time_elapsed := e.time_elapsed + dt,
             tick_count := e.tick_count + 1 }
    forces ⟨a_L, a_J, a_P, a_W⟩

/-- `n` successive `step dt` calls (the loop bodies of `simulate` and of the
scratch rollout in `self_improve`). -/
def stepN (dt : ℝ) (n : ℕ) (e : Engine) : Engine := (step dt)^[n] e

/-- Python `int(x)`: truncation toward zero. -/
def pyInt (x : ℝ) : ℤ := if 0 ≤ x then ⌊x⌋ else ⌈x⌉

/-- `AutopoieticEngine.simulate` (lines 502-510): runs
`int(duration / dt)` steps and returns `self.history` (the full cumulative
log, not only the new entries). -/
def simulate (duration dt : ℝ) (e : Engine) : Engine × List Snapshot :=
  let steps := (pyInt (duration / dt)).toNat
  let e1 := stepN dt steps e
  (e1, e1.history)

/-- Python `max(xs)` on a (nonempty) list. -/
def pyMax (xs : List ℝ) : ℝ := xs.foldl max (xs.headD 0)

/-- One iteration of the loop body of `AutopoieticEngine.self_improve`
(lines 409-444), with the mutation's random draws supplied as `u`.

Python reference semantics dictate the shape of this definition:
`AutopoieticEngine(self.state, self.tau, self.params)` passes the live
engine's `DynamicParameters` object itself, and `__init__` stores it without
copying (`self.params = params or DynamicParameters()`), so
`sim_engine.params` *is* the live `self.params` object.
`sim_engine.params.random_mutation(rate)` therefore mutates the live engine's
parameters in place.  `best_params` starts as `self.params` and, on accept,
is rebound to `sim_engine.params` — the same object — so the trailing
`self.params = best_params` rebinds the same mutated object in both branches.
Consequently the live engine's parameters after the iteration are the mutated
parameters whether the candidate is accepted or rejected, while
`best_efficiency` is updated only on accept.  (`sim_engine.step` rebinds
`sim_engine.state` to fresh objects, so the live `state` is untouched.) -/
def selfImproveIter (u : Fin 15 → ℝ) (live : Engine) (best_efficiency : ℝ) :
    Engine × ℝ :=
  let mutated := random_mutation live.params u
  let sim0 := mkEngine live.state mutated
  let sim := stepN 0.1 10 sim0
  let sim_peak_efficiency := pyMax sim.efficiency_trend
  let sim_final_efficiency := sim.efficiency_trend.getLastD 0
  let sim_score := sim_final_efficiency * 0.8 + sim_peak_efficiency * 0.2
  ({ live with params := mutated },
   if sim_score > best_efficiency then sim_score else best_efficiency)

/-! ## Reachable engine states

An engine is constructed from an `LJPWCoordinates` instance (every Python
instance of which is in the image of `mkCoords`, by `__post_init__`) and then
evolved by `step` calls. -/

inductive Reachable : Engine → Prop
  | init (l j p w : ℝ) (params : DynamicParameters) :
      Reachable (mkEngine (mkCoords l j p w) params)
  | step (e : Engine) (dt : ℝ) : Reachable e → Reachable (step dt e)

/-- The domain bounds of `LJPWCoordinates.__post_init__`:
`L ∈ [0, sqrt 2]`, `J, P, W ∈ [0, 1]`. -/
def InBounds (s : LJPWCoordinates) : Prop :=
  0 ≤ s.L ∧ s.L ≤ Real.sqrt 2 ∧ 0 ≤ s.J ∧ s.J ≤ 1 ∧
  0 ≤ s.P ∧ s.P ≤ 1 ∧ 0 ≤ s.W ∧ s.W ≤ 1

/-- A sequence of `step` calls with the given `dt` values, in order. -/
def runSteps (e : Engine) (dts : List ℝ) : Engine :=
  dts.foldl (fun a dt => step dt a) e

/-- The force model as claim C8 describes it (for comparison against
`calculate_forces`): the Harmony-dependent `kappa` multipliers appear only in
the first (Love) equation, and the other three derivative equations carry no
Harmony-dependent multiplier. -/
def forcesFirstOnly (params : DynamicParameters) (s : LJPWCoordinates) : Vec4 :=
  let H := harmony_static s
  let kappa_LJ := 1 + 0.4 * H
  let kappa_LW := 1 + 0.5 * H
  let F_L := params.alpha_LJ * s.J * kappa_LJ + params.alpha_LW * s.W * kappa_LW -
      params.beta_L * s.L
  let erosion := params.gamma * s.P * (1 - s.W / W0)
  let F_J := params.alpha_JL * (s.L / (params.K_JL + s.L)) + params.alpha_JW * s.W -
      erosion - params.beta_J * s.J
  let F_P := params.alpha_PL * s.L + params.alpha_PJ * s.J - params.beta_P * s.P
  let F_W := params.alpha_WL * s.L + params.alpha_WJ * s.J +
      params.alpha_WP * s.P - params.beta_W * s.W
  ⟨F_L, F_J, F_P, F_W⟩

/-! ## Concrete fixtures used by counterexamples and witnesses -/

/-- The coordinates constructed from `(1, 1, 1, 1)` (the anchor point). -/
def anchorC : LJPWCoordinates := mkCoords 1 1 1 1

/-- A freshly constructed engine at the anchor with default parameters. -/
def E0 : Engine := mkEngine anchorC defaultParams

/-- `E0` after ten `step(0)` calls. -/
def E10 : Engine := stepN 0 10 E0

/-- A concrete tuple of mutation draws: every `np.random.uniform(-0.05, 0.05)`
draw comes out `0.05` (an admissible draw for `learning_rate = 0.05`). -/
def noiseAll : Fin 15 → ℝ := fun _ => 0.05

end

/-! ## Basic lemmas about the clamp and the metrics -/

theorem clip_le_hi (x lo hi : ℝ) : clip x lo hi ≤ hi :=
  min_le_right _ _

theorem lo_le_clip (x lo hi : ℝ) (h : lo ≤ hi) : lo ≤ clip x lo hi :=
  le_min (le_max_right _ _) h

theorem clip_eq_self (y lo hi : ℝ) (h1 : lo ≤ y) (h2 : y ≤ hi) : clip y lo hi = y := by
  rw [clip, max_eq_left h1, min_eq_left h2]

theorem sqrt_two_nonneg : (0 : ℝ) ≤ Real.sqrt 2 := Real.sqrt_nonneg 2

theorem one_le_sqrt_two : (1 : ℝ) ≤ Real.sqrt 2 := by
  rw [show (1 : ℝ) = Real.sqrt 1 from (Real.sqrt_one).symm]
  exact Real.sqrt_le_sqrt (by norm_num)

theorem mkCoords_inBounds (l j p w : ℝ) : InBounds (mkCoords l j p w) :=
  ⟨lo_le_clip _ _ _ sqrt_two_nonneg, clip_le_hi _ _ _,
   lo_le_clip _ _ _ (by norm_num), clip_le_hi _ _ _,
   lo_le_clip _ _ _ (by norm_num), clip_le_hi _ _ _,
   lo_le_clip _ _ _ (by norm_num), clip_le_hi _ _ _⟩

theorem mkCoords_self (l j p w : ℝ) :
    mkCoords (mkCoords l j p w).L (mkCoords l j p w).J (mkCoords l j p w).P
      (mkCoords l j p w).W = mkCoords l j p w := by
  have h := mkCoords_inBounds l j p w
  obtain ⟨h1, h2, h3, h4, h5, h6, h7, h8⟩ := h
  unfold mkCoords at *
  simp only [LJPWCoordinates.mk.injEq]
  exact ⟨clip_eq_self _ _ _ h1 h2, clip_eq_self _ _ _ h3 h4,
         clip_eq_self _ _ _ h5 h6, clip_eq_self _ _ _ h7 h8⟩

theorem distance_to_anchor_nonneg (s : LJPWCoordinates) :
    0 ≤ distance_to_anchor s := Real.sqrt_nonneg _

theorem harmony_static_nonneg (s : LJPWCoordinates) : 0 ≤ harmony_static s := by
  have h := distance_to_anchor_nonneg s
  unfold harmony_static
  positivity

theorem harmony_static_le_one (s : LJPWCoordinates) : harmony_static s ≤ 1 := by
  have h := distance_to_anchor_nonneg s
  rw [harmony_static, div_le_one (by linarith)]
  linarith

theorem anchorC_L : anchorC.L = 1 := by
  rw [anchorC, mkCoords]
  exact clip_eq_self _ _ _ (by norm_num) one_le_sqrt_two

theorem anchorC_J : anchorC.J = 1 := clip_eq_self _ _ _ (by norm_num) le_rfl

theorem anchorC_P : anchorC.P = 1 := clip_eq_self _ _ _ (by norm_num) le_rfl

theorem anchorC_W : anchorC.W = 1 := clip_eq_self _ _ _ (by norm_num) le_rfl

theorem distance_to_anchor_anchorC : distance_to_anchor anchorC = 0 := by
  rw [distance_to_anchor, anchorC_L, anchorC_J, anchorC_P, anchorC_W]
  norm_num

theorem harmony_static_anchorC : harmony_static anchorC = 1 := by
  rw [harmony_static, distance_to_anchor_anchorC]
  norm_num

/-! ## Projection lemmas for `step` and `stepN` -/

theorem step_state (dt : ℝ) (e : Engine) :
    (step dt e).state = mkCoords
      (e.state.L + clip ((calculate_forces e.params e.state).l / inertia_L) (-0.05) 0.05 * dt)
      (e.state.J + clip ((calculate_forces e.params e.state).j / inertia_J) (-0.05) 0.05 * dt)
      (e.state.P + clip ((calculate_forces e.params e.state).p / inertia_P) (-0.05) 0.05 * dt)
      (e.state.W + clip ((calculate_forces e.params e.state).w / inertia_W) (-0.05) 0.05 * dt) :=
  rfl

theorem step_params (dt : ℝ) (e : Engine) : (step dt e).params = e.params := rfl

theorem step_time (dt : ℝ) (e : Engine) :
    (step dt e).time_elapsed = e.time_elapsed + dt := rfl

theorem step_tick (dt : ℝ) (e : Engine) :
    (step dt e).tick_count = e.tick_count + 1 := rfl

theorem step_trend (dt : ℝ) (e : Engine) :
    (step dt e).efficiency_trend =
      e.efficiency_trend ++ [harmony_static (step dt e).state * (step dt e).state.P] :=
  rfl

theorem step_conv (dt : ℝ) (e : Engine) :
    (step dt e).convergence =
      if (step dt e).efficiency_trend.length > 10 then
        decide (npVar (last10 (step dt e).efficiency_trend) < 0.0001)
      else e.convergence :=
  rfl

theorem step_history (dt : ℝ) (e : Engine) :
    ∃ x : Snapshot, (step dt e).history = e.history ++ [x] ∧
      x.tick = e.tick_count + 1 ∧ x.time = e.time_elapsed + dt :=
  ⟨_, rfl, rfl, rfl⟩

theorem stepN_zero (dt : ℝ) (e : Engine) : stepN dt 0 e = e := rfl

theorem stepN_succ (dt : ℝ) (n : ℕ) (e : Engine) :
    stepN dt (n + 1) e = step dt (stepN dt n e) :=
  Function.iterate_succ_apply' _ _ _

theorem stepN_params (dt : ℝ) (n : ℕ) (e : Engine) :
    (stepN dt n e).params = e.params := by
  induction n with
  | zero => rfl
  | succ n ih => rw [stepN_succ, step_params, ih]

theorem stepN_tick (dt : ℝ) (n : ℕ) (e : Engine) :
    (stepN dt n e).tick_count = e.tick_count + n := by
  induction n with
  | zero => rfl
  | succ n ih => rw [stepN_succ, step_tick, ih]; omega

theorem stepN_time (dt : ℝ) (n : ℕ) (e : Engine) :
    (stepN dt n e).time_elapsed = e.time_elapsed + n * dt := by
  induction n with
  | zero => simp [stepN_zero]
  | succ n ih =>
    rw [stepN_succ, step_time, ih]
    push_cast
    ring

theorem stepN_trend_length (dt : ℝ) (n : ℕ) (e : Engine) :
    (stepN dt n e).efficiency_trend.length = e.efficiency_trend.length + n := by
  induction n with
  | zero => rfl
  | succ n ih =>
    rw [stepN_succ, step_trend, List.length_append, ih, List.length_singleton]
    omega

theorem stepN_history (dt : ℝ) (n : ℕ) (e : Engine) :
    ∃ tail : List Snapshot, (stepN dt n e).history = e.history ++ tail ∧
      tail.length = n ∧
      tail.map Snapshot.tick = (List.range n).map (fun k => e.tick_count + (k + 1)) ∧
      tail.map Snapshot.time =
        (List.range n).map (fun k : ℕ => e.time_elapsed + ((k : ℝ) + 1) * dt) := by
  induction n with
  | zero => exact ⟨[], by simp [stepN_zero]⟩
  | succ n ih =>
    obtain ⟨tail, hh, hlen, htick, htime⟩ := ih
    obtain ⟨x, hx, hxt, hxtime⟩ := step_history dt (stepN dt n e)
    refine ⟨tail ++ [x], ?_, ?_, ?_, ?_⟩
    · rw [stepN_succ, hx, hh, List.append_assoc]
    · simp [hlen]
    · rw [List.range_succ, List.map_append, List.map_append, htick]
      congr 1
      simp only [List.map_cons, List.map_nil, List.cons.injEq, and_true, hxt, stepN_tick]
      omega
    · rw [List.range_succ, List.map_append, List.map_append, htime]
      congr 1
      simp only [List.map_cons, List.map_nil, List.cons.injEq, and_true, hxtime, stepN_time]
      ring

/-! ## Claim C2 -/

/-- Claim C2: for every `StateVector` reachable through engine construction
followed by any sequence of `step(dt)` calls, `L ∈ [0, sqrt 2]` and
`J, P, W ∈ [0, 1]`; every constructed instance is clamped into these bounds
at construction and no operation produces an instance outside them. -/
theorem C2_state_bounds (e : Engine) (h : Reachable e) : InBounds e.state := by
  induction h with
  | init l j p w params => exact mkCoords_inBounds l j p w
  | step e dt _ _ =>
    rw [step_state]
    exact mkCoords_inBounds _ _ _ _

/-- Witness for C2 at a concrete reachable engine (one step from `E0`). -/
theorem C2_state_bounds_witness :
    Reachable (step 0.1 E0) ∧ InBounds (step 0.1 E0).state :=
  ⟨Reachable.step _ _ (Reachable.init 1 1 1 1 defaultParams),
   C2_state_bounds _ (Reachable.step _ _ (Reachable.init 1 1 1 1 defaultParams))⟩

/-! ## Claim C4 -/

/-- Claim C4: for every engine state and `dt > 0`, `step(dt)` computes the
force vector at the current state, divides each component by its fixed
per-dimension inertia, clamps each acceleration into `[-0.05, 0.05]`, sets
each new component to `old + acceleration * dt`, constructs a new clamped
`StateVector`, advances elapsed time by `dt` and the counter by exactly 1,
and appends exactly one snapshot holding the derived metrics of the new
state. -/
theorem C4_step_algorithm (e : Engine) (dt : ℝ) (h : 0 < dt) :
    (step dt e).state = mkCoords
      (e.state.L + clip ((calculate_forces e.params e.state).l / inertia_L) (-0.05) 0.05 * dt)
      (e.state.J + clip ((calculate_forces e.params e.state).j / inertia_J) (-0.05) 0.05 * dt)
      (e.state.P + clip ((calculate_forces e.params e.state).p / inertia_P) (-0.05) 0.05 * dt)
      (e.state.W + clip ((calculate_forces e.params e.state).w / inertia_W) (-0.05) 0.05 * dt) ∧
    (step dt e).time_elapsed = e.time_elapsed + dt ∧
    (step dt e).tick_count = e.tick_count + 1 ∧
    (step dt e).history = e.history ++ [{
      time := e.time_elapsed + dt
      tick := e.tick_count + 1
      state := ((step dt e).state.L, (step dt e).state.J,
                (step dt e).state.P, (step dt e).state.W)
      forces := calculate_forces e.params e.state
      accelerations := ⟨
        clip ((calculate_forces e.params e.state).l / inertia_L) (-0.05) 0.05,
        clip ((calculate_forces e.params e.state).j / inertia_J) (-0.05) 0.05,
        clip ((calculate_forces e.params e.state).p / inertia_P) (-0.05) 0.05,
        clip ((calculate_forces e.params e.state).w / inertia_W) (-0.05) 0.05⟩
      efficiency := harmony_static (step dt e).state * (step dt e).state.P
      entropy := semantic_entropy (step dt e).state
      harmony := harmony_static (step dt e).state
      consciousness := consciousness (step dt e).state
      phase := phase (step dt e).state
      gift_of_finitude := gift_of_finitude (step dt e).state
      proximity_to_anchor := proximity_to_anchor (step dt e).state
      is_finite := is_finite (step dt e).state }] :=
  ⟨rfl, rfl, rfl, rfl⟩

/-- Witness for C4 at `E0` with `dt = 1`. -/
theorem C4_step_algorithm_witness :
    (0 : ℝ) < 1 ∧ (step 1 E0).time_elapsed = E0.time_elapsed + 1 :=
  ⟨by norm_num, (C4_step_algorithm E0 1 (by norm_num)).2.1⟩

/-! ## Claim C6 -/

/-- Claim C6: two engines built from identical initial state, identical
parameters (and the fixed global inertia weights) produce identical states,
elapsed times, step counters and history entries after the same sequence of
`step(dt)` calls — `step` involves no randomness and is fully determined by
the state, the parameters and `dt`. -/
theorem C6_deterministic (s1 s2 : LJPWCoordinates) (p1 p2 : DynamicParameters)
    (dts : List ℝ) (hs : s1 = s2) (hp : p1 = p2) :
    (runSteps (mkEngine s1 p1) dts).state = (runSteps (mkEngine s2 p2) dts).state ∧
    (runSteps (mkEngine s1 p1) dts).time_elapsed = (runSteps (mkEngine s2 p2) dts).time_elapsed ∧
    (runSteps (mkEngine s1 p1) dts).tick_count = (runSteps (mkEngine s2 p2) dts).tick_count ∧
    (runSteps (mkEngine s1 p1) dts).history = (runSteps (mkEngine s2 p2) dts).history := by
  subst hs
  subst hp
  exact ⟨rfl, rfl, rfl, rfl⟩

/-- Witness for C6 at concrete identical inputs. -/
theorem C6_deterministic_witness :
    anchorC = anchorC ∧
    (runSteps (mkEngine anchorC defaultParams) [0.1]).state =
      (runSteps (mkEngine anchorC defaultParams) [0.1]).state :=
  ⟨rfl, (C6_deterministic anchorC anchorC defaultParams defaultParams [0.1] rfl rfl).1⟩

/-! ## Claim C7 -/

/-- Claim C7 counterexample: the claim says a `step` call with `dt ≤ 0` is
rejected before any state mutation, leaving counter and history unchanged.
At `dt = 0 ≤ 0` on a fresh engine, the step counter and the history both
change: `step` has no `dt` guard. -/
theorem C7_counterexample :
    (0 : ℝ) ≤ 0 ∧ (step 0 E0).tick_count ≠ E0.tick_count ∧
      (step 0 E0).history ≠ E0.history := by
  refine ⟨le_refl 0, ?_, ?_⟩
  · rw [step_tick]
    omega
  · obtain ⟨x, hx, _, _⟩ := step_history 0 E0
    rw [hx]
    intro hcontra
    have := congrArg List.length hcontra
    simp at this

/-- Claim C7 amended: `step` performs no validation of `dt` at all: also when
`dt ≤ 0` it executes the normal update — the step counter increments by 1,
elapsed time advances by `dt`, and exactly one history snapshot is appended;
nothing is rejected. -/
theorem C7_no_dt_guard (e : Engine) (dt : ℝ) (h : dt ≤ 0) :
    (step dt e).tick_count = e.tick_count + 1 ∧
    (step dt e).time_elapsed = e.time_elapsed + dt ∧
    (step dt e).history.length = e.history.length + 1 := by
  refine ⟨step_tick dt e, step_time dt e, ?_⟩
  obtain ⟨x, hx, _, _⟩ := step_history dt e
  rw [hx]
  simp

/-- Witness for the amended C7 at `dt = -1`. -/
theorem C7_no_dt_guard_witness :
    (-1 : ℝ) ≤ 0 ∧ (step (-1) E0).tick_count = E0.tick_count + 1 :=
  ⟨by norm_num, (C7_no_dt_guard E0 (-1) (by norm_num)).1⟩

/-! ## Claim C9 -/

/-- The single-field update of `random_mutation` for a positive field. -/
theorem mutate1_spec (v u : ℝ) (h : 0 < v) :
    mutate1 v u = max 0.01 (v + u * v) ∧ (0.01 : ℝ) ≤ mutate1 v u := by
  rw [mutate1, if_pos h]
  exact ⟨rfl, le_max_left _ _⟩

/-- Claim C9: after any single `random_mutation` call, for every admissible
draw tuple (hence every rate), every coefficient that was strictly positive
before the call follows the rule `new = max(0.01, v + u*v)` and in particular
is at least `0.01` afterward. -/
theorem C9_mutation_floor (p : DynamicParameters) (u : Fin 15 → ℝ) :
    (0 < p.alpha_LJ → (random_mutation p u).alpha_LJ =
        max 0.01 (p.alpha_LJ + u 0 * p.alpha_LJ) ∧ 0.01 ≤ (random_mutation p u).alpha_LJ) ∧
    (0 < p.alpha_LW → (random_mutation p u).alpha_LW =
        max 0.01 (p.alpha_LW + u 1 * p.alpha_LW) ∧ 0.01 ≤ (random_mutation p u).alpha_LW) ∧
    (0 < p.alpha_JL → (random_mutation p u).alpha_JL =
        max 0.01 (p.alpha_JL + u 2 * p.alpha_JL) ∧ 0.01 ≤ (random_mutation p u).alpha_JL) ∧
    (0 < p.alpha_JW → (random_mutation p u).alpha_JW =
        max 0.01 (p.alpha_JW + u 3 * p.alpha_JW) ∧ 0.01 ≤ (random_mutation p u).alpha_JW) ∧
    (0 < p.alpha_PL → (random_mutation p u).alpha_PL =
        max 0.01 (p.alpha_PL + u 4 * p.alpha_PL) ∧ 0.01 ≤ (random_mutation p u).alpha_PL) ∧
    (0 < p.alpha_PJ → (random_mutation p u).alpha_PJ =
        max 0.01 (p.alpha_PJ + u 5 * p.alpha_PJ) ∧ 0.01 ≤ (random_mutation p u).alpha_PJ) ∧
    (0 < p.alpha_WL → (random_mutation p u).alpha_WL =
        max 0.01 (p.alpha_WL + u 6 * p.alpha_WL) ∧ 0.01 ≤ (random_mutation p u).alpha_WL) ∧
    (0 < p.alpha_WJ → (random_mutation p u).alpha_WJ =
        max 0.01 (p.alpha_WJ + u 7 * p.alpha_WJ) ∧ 0.01 ≤ (random_mutation p u).alpha_WJ) ∧
    (0 < p.alpha_WP → (random_mutation p u).alpha_WP =
        max 0.01 (p.alpha_WP + u 8 * p.alpha_WP) ∧ 0.01 ≤ (random_mutation p u).alpha_WP) ∧
    (0 < p.beta_L → (random_mutation p u).beta_L =
        max 0.01 (p.beta_L + u 9 * p.beta_L) ∧ 0.01 ≤ (random_mutation p u).beta_L) ∧
    (0 < p.beta_J → (random_mutation p u).beta_J =
        max 0.01 (p.beta_J + u 10 * p.beta_J) ∧ 0.01 ≤ (random_mutation p u).beta_J) ∧
    (0 < p.beta_P → (random_mutation p u).beta_P =
        max 0.01 (p.beta_P + u 11 * p.beta_P) ∧ 0.01 ≤ (random_mutation p u).beta_P) ∧
    (0 < p.beta_W → (random_mutation p u).beta_W =
        max 0.01 (p.beta_W + u 12 * p.beta_W) ∧ 0.01 ≤ (random_mutation p u).beta_W) ∧
    (0 < p.gamma → (random_mutation p u).gamma =
        max 0.01 (p.gamma + u 13 * p.gamma) ∧ 0.01 ≤ (random_mutation p u).gamma) ∧
    (0 < p.K_JL → (random_mutation p u).K_JL =
        max 0.01 (p.K_JL + u 14 * p.K_JL) ∧ 0.01 ≤ (random_mutation p u).K_JL) :=
  ⟨fun h => mutate1_spec _ _ h, fun h => mutate1_spec _ _ h, fun h => mutate1_spec _ _ h,
   fun h => mutate1_spec _ _ h, fun h => mutate1_spec _ _ h, fun h => mutate1_spec _ _ h,
   fun h => mutate1_spec _ _ h, fun h => mutate1_spec _ _ h, fun h => mutate1_spec _ _ h,
   fun h => mutate1_spec _ _ h, fun h => mutate1_spec _ _ h, fun h => mutate1_spec _ _ h,
   fun h => mutate1_spec _ _ h, fun h => mutate1_spec _ _ h, fun h => mutate1_spec _ _ h⟩

/-- Witness for C9: all fifteen positivity hypotheses discharged at the
default parameters with every draw equal to `0.05`. -/
theorem C9_mutation_floor_witness :
    (0 < defaultParams.alpha_LJ ∧ 0.01 ≤ (random_mutation defaultParams noiseAll).alpha_LJ) ∧
    (0 < defaultParams.alpha_LW ∧ 0.01 ≤ (random_mutation defaultParams noiseAll).alpha_LW) ∧
    (0 < defaultParams.alpha_JL ∧ 0.01 ≤ (random_mutation defaultParams noiseAll).alpha_JL) ∧
    (0 < defaultParams.alpha_JW ∧ 0.01 ≤ (random_mutation defaultParams noiseAll).alpha_JW) ∧
    (0 < defaultParams.alpha_PL ∧ 0.01 ≤ (random_mutation defaultParams noiseAll).alpha_PL) ∧
    (0 < defaultParams.alpha_PJ ∧ 0.01 ≤ (random_mutation defaultParams noiseAll).alpha_PJ) ∧
    (0 < defaultParams.alpha_WL ∧ 0.01 ≤ (random_mutation defaultParams noiseAll).alpha_WL) ∧
    (0 < defaultParams.alpha_WJ ∧ 0.01 ≤ (random_mutation defaultParams noiseAll).alpha_WJ) ∧
    (0 < defaultParams.alpha_WP ∧ 0.01 ≤ (random_mutation defaultParams noiseAll).alpha_WP) ∧
    (0 < defaultParams.beta_L ∧ 0.01 ≤ (random_mutation defaultParams noiseAll).beta_L) ∧
    (0 < defaultParams.beta_J ∧ 0.01 ≤ (random_mutation defaultParams noiseAll).beta_J) ∧
    (0 < defaultParams.beta_P ∧ 0.01 ≤ (random_mutation defaultParams noiseAll).beta_P) ∧
    (0 < defaultParams.beta_W ∧ 0.01 ≤ (random_mutation defaultParams noiseAll).beta_W) ∧
    (0 < defaultParams.gamma ∧ 0.01 ≤ (random_mutation defaultParams noiseAll).gamma) ∧
    (0 < defaultParams.K_JL ∧ 0.01 ≤ (random_mutation defaultParams noiseAll).K_JL) := by
  obtain ⟨h1, h2, h3, h4, h5, h6, h7, h8, h9, h10, h11, h12, h13, h14, h15⟩ :=
    C9_mutation_floor defaultParams noiseAll
  refine ⟨⟨?_, (h1 ?_).2⟩, ⟨?_, (h2 ?_).2⟩, ⟨?_, (h3 ?_).2⟩, ⟨?_, (h4 ?_).2⟩,
    ⟨?_, (h5 ?_).2⟩, ⟨?_, (h6 ?_).2⟩, ⟨?_, (h7 ?_).2⟩, ⟨?_, (h8 ?_).2⟩,
    ⟨?_, (h9 ?_).2⟩, ⟨?_, (h10 ?_).2⟩, ⟨?_, (h11 ?_).2⟩, ⟨?_, (h12 ?_).2⟩,
    ⟨?_, (h13 ?_).2⟩, ⟨?_, (h14 ?_).2⟩, ⟨?_, (h15 ?_).2⟩⟩ <;>
      norm_num [defaultParams]

/-! ## Claim C8 -/

/-- Claim C8 counterexample: the claim says the Harmony-dependent `kappa`
multipliers appear only in the first (Love) derivative equation and the other
three equations contain none.  At the anchor state with default parameters
the Power derivative of `calculate_forces` differs from the kappa-free Power
derivative of `forcesFirstOnly` (0.076 vs 0.04): `kappa_LP = 1 + 0.3*H` does
appear in the Power equation. -/
theorem C8_counterexample :
    (calculate_forces defaultParams anchorC).p ≠ (forcesFirstOnly defaultParams anchorC).p := by
  simp only [calculate_forces, forcesFirstOnly, harmony_static_anchorC,
    anchorC_L, anchorC_J, anchorC_P, anchorC_W, defaultParams]
  norm_num

/-- Claim C8 amended: the three `kappa` multipliers attach to the Love-sourced
terms — `1 + 0.4*H` and `1 + 0.5*H` in the Love equation, `1 + 0.3*H` on the
`alpha_PL * L` term of the Power equation, and `1 + 0.5*H` on the
`alpha_WL * L` term of the Wisdom equation; only the Justice equation
contains no Harmony-dependent multiplier (it agrees with the kappa-free
version everywhere). -/
theorem C8_kappa_structure (params : DynamicParameters) (s : LJPWCoordinates) :
    calculate_forces params s = ⟨
      params.alpha_LJ * s.J * (1 + 0.4 * harmony_static s) +
        params.alpha_LW * s.W * (1 + 0.5 * harmony_static s) - params.beta_L * s.L,
      params.alpha_JL * (s.L / (params.K_JL + s.L)) + params.alpha_JW * s.W -
        params.gamma * s.P * (1 - s.W / W0) - params.beta_J * s.J,
      params.alpha_PL * s.L * (1 + 0.3 * harmony_static s) + params.alpha_PJ * s.J -
        params.beta_P * s.P,
      params.alpha_WL * s.L * (1 + 0.5 * harmony_static s) + params.alpha_WJ * s.J +
        params.alpha_WP * s.P - params.beta_W * s.W⟩ ∧
    (calculate_forces params s).j = (forcesFirstOnly params s).j :=
  ⟨rfl, rfl⟩

/-! ## Claim C5 -/

/-- Claim C5: for `duration > 0` and `dt > 0`, `simulate(duration, dt)`
appends exactly `floor(duration/dt)` new history entries, with strictly
increasing step index and strictly increasing elapsed time. -/
theorem C5_simulate_appends (e : Engine) (duration dt : ℝ)
    (hdur : 0 < duration) (hdt : 0 < dt) :
    ∃ tail : List Snapshot,
      (simulate duration dt e).1.history = e.history ++ tail ∧
      tail.length = (⌊duration / dt⌋).toNat ∧
      tail.Pairwise (fun a b => a.tick < b.tick ∧ a.time < b.time) := by
  have hge : 0 ≤ duration / dt := le_of_lt (div_pos hdur hdt)
  have hsteps : pyInt (duration / dt) = ⌊duration / dt⌋ := by
    rw [pyInt, if_pos hge]
  have hsim : (simulate duration dt e).1 = stepN dt ((pyInt (duration / dt)).toNat) e := rfl
  obtain ⟨tail, hh, hlen, htick, htime⟩ :=
    stepN_history dt ((pyInt (duration / dt)).toNat) e
  refine ⟨tail, by rw [hsim, hh], by rw [hlen, hsteps], ?_⟩
  have ptick : tail.Pairwise (fun a b => a.tick < b.tick) := by
    have hmap : (tail.map Snapshot.tick).Pairwise (· < ·) := by
      rw [htick]
      refine (List.pairwise_map).mpr ?_
      exact (List.pairwise_lt_range _).imp fun hab => by omega
    exact (List.pairwise_map).mp hmap
  have ptime : tail.Pairwise (fun a b => a.time < b.time) := by
    have hmap : (tail.map Snapshot.time).Pairwise (· < ·) := by
      rw [htime]
      refine (List.pairwise_map).mpr ?_
      refine List.Pairwise.imp ?_ (List.pairwise_lt_range _)
      intro a b hab
      have h1 : (a : ℝ) < b := Nat.cast_lt.mpr hab
      have h2 : ((a : ℝ) + 1) * dt < ((b : ℝ) + 1) * dt :=
        mul_lt_mul_of_pos_right (by linarith) hdt
      linarith
    exact (List.pairwise_map).mp hmap
  exact ptick.and ptime

/-- Witness for C5: `simulate(1, 1)` on a fresh engine. -/
theorem C5_simulate_appends_witness :
    (0 : ℝ) < 1 ∧ ∃ tail : List Snapshot,
      (simulate 1 1 E0).1.history = E0.history ++ tail ∧
      tail.length = (⌊(1 : ℝ) / 1⌋).toNat ∧
      tail.Pairwise (fun a b => a.tick < b.tick ∧ a.time < b.time) :=
  ⟨by norm_num, C5_simulate_appends E0 1 1 (by norm_num) (by norm_num)⟩

/-! ## Claim C10 -/

/-- Claim C10: for every `simulate(duration, dt)` call with `dt > 0`, the
returned list is the engine's entire cumulative history (the prior entries
are a prefix of it), not only the entries this call appended; in particular
when `0 < duration < dt` the call appends zero entries and returns the
previously recorded history unchanged. -/
theorem C10_simulate_full_history (e : Engine) (duration dt : ℝ) (hdt : 0 < dt) :
    (simulate duration dt e).2 = (simulate duration dt e).1.history ∧
    (∃ tail : List Snapshot, (simulate duration dt e).2 = e.history ++ tail) ∧
    (0 < duration → duration < dt → (simulate duration dt e).2 = e.history) := by
  refine ⟨rfl, ?_, ?_⟩
  · obtain ⟨tail, hh, -, -, -⟩ := stepN_history dt ((pyInt (duration / dt)).toNat) e
    exact ⟨tail, hh⟩
  · intro h1 h2
    have hge : 0 ≤ duration / dt := le_of_lt (div_pos h1 hdt)
    have hlt : duration / dt < 1 := (div_lt_one hdt).mpr h2
    have hz : pyInt (duration / dt) = 0 := by
      rw [pyInt, if_pos hge]
      exact Int.floor_eq_zero_iff.mpr ⟨hge, hlt⟩
    show (stepN dt ((pyInt (duration / dt)).toNat) e).history = e.history
    rw [hz]
    rfl

/-- Witness for C10: `simulate(1, 2)` appends nothing and returns the prior
history. -/
theorem C10_simulate_full_history_witness :
    (0 : ℝ) < 2 ∧ (0 : ℝ) < 1 ∧ (1 : ℝ) < 2 ∧ (simulate 1 2 E0).2 = E0.history :=
  ⟨by norm_num, by norm_num, by norm_num,
   (C10_simulate_full_history E0 1 2 (by norm_num)).2.2 (by norm_num) (by norm_num)⟩

/-! ## Claim C3 -/

/-- With `dt = 0` the state is a fixed point of `step` (each component moves
by `acceleration * 0`), so the recorded efficiencies repeat. -/
theorem step_zero_state (e : Engine) (l j p w : ℝ) (h : e.state = mkCoords l j p w) :
    (step 0 e).state = e.state := by
  rw [step_state]
  simp only [mul_zero, add_zero]
  rw [h, mkCoords_self]

/-- Running `E0` for `n ≤ 10` zero-length steps: the state stays at the
anchor, the efficiency trend is `n` copies of `1`, and the convergence flag
is still `false`. -/
theorem E0_run_invariant : ∀ n, n ≤ 10 → (stepN 0 n E0).state = anchorC ∧
    (stepN 0 n E0).efficiency_trend = List.replicate n 1 ∧
    (stepN 0 n E0).convergence = false := by
  intro n hn
  induction n with
  | zero => exact ⟨rfl, rfl, rfl⟩
  | succ n ih =>
    obtain ⟨hs, ht, hc⟩ := ih (by omega)
    have hstate : (stepN 0 (n + 1) E0).state = anchorC := by
      rw [stepN_succ, step_zero_state _ 1 1 1 1 (by rw [hs]; rfl), hs]
    have htrend : (stepN 0 (n + 1) E0).efficiency_trend = List.replicate (n + 1) 1 := by
      rw [stepN_succ, step_trend, ← stepN_succ, hstate, ht,
        harmony_static_anchorC, anchorC_P, one_mul, List.replicate_succ']
    refine ⟨hstate, htrend, ?_⟩
    rw [stepN_succ, step_conv, ← stepN_succ, htrend, if_neg, hc]
    simp only [List.length_replicate, gt_iff_lt, not_lt]
    omega

/-- The population variance of ten identical values is zero. -/
theorem npVar_replicate_ten_one : npVar (List.replicate 10 (1 : ℝ)) = 0 := by
  rw [npVar]
  simp [List.map_replicate, List.sum_replicate, List.length_replicate]
  norm_num

/-- Claim C3 counterexample: the claim says that whenever at least 10
efficiency entries exist, the convergence flag equals
`variance(last 10) < 1e-4`.  After ten `step(0)` calls from the anchor the
trend has exactly 10 entries, all equal (variance `0 < 1e-4`), yet the flag
is `false`: the code recomputes the flag only when *more than* 10 entries
exist. -/
theorem C3_counterexample :
    E10.efficiency_trend.length = 10 ∧
    npVar (last10 E10.efficiency_trend) < 0.0001 ∧
    E10.convergence = false := by
  obtain ⟨-, ht, hc⟩ := E0_run_invariant 10 le_rfl
  have htrend : E10.efficiency_trend = List.replicate 10 1 := ht
  refine ⟨by rw [htrend]; simp, ?_, hc⟩
  have hlast : last10 (List.replicate 10 (1 : ℝ)) = List.replicate 10 1 := by
    rw [last10]
    simp
  rw [htrend, hlast, npVar_replicate_ten_one]
  norm_num

/-- Claim C3 amended: the flag is recomputed on every step, but only once
*more than* 10 efficiency entries exist (`len(trend) > 10`); with at most 10
entries — including exactly 10 — it still has its initial value `false`.
For every reachable engine: the flag is true iff more than 10 entries exist
and the variance of the most recent 10 is below 1e-4. -/
theorem C3_convergence_flag (e : Engine) (h : Reachable e) :
    e.convergence = true ↔
      (10 < e.efficiency_trend.length ∧ npVar (last10 e.efficiency_trend) < 0.0001) := by
  induction h with
  | init l j p w params =>
    simp [mkEngine]
  | step e dt hR ih =>
    rw [step_conv]
    by_cases hlen : (step dt e).efficiency_trend.length > 10
    · rw [if_pos hlen]
      simp only [decide_eq_true_eq]
      exact (and_iff_right hlen).symm
    · rw [if_neg hlen]
      have hlen' : ¬ 10 < e.efficiency_trend.length := by
        rw [step_trend, List.length_append, List.length_singleton] at hlen
        omega
      constructor
      · intro hc
        exact absurd (ih.mp hc).1 hlen'
      · rintro ⟨h10, -⟩
        exact (hlen h10).elim

/-- Witness for the amended C3 at a freshly constructed engine. -/
theorem C3_convergence_flag_witness :
    Reachable E0 ∧ (E0.convergence = true ↔
      (10 < E0.efficiency_trend.length ∧ npVar (last10 E0.efficiency_trend) < 0.0001)) :=
  ⟨Reachable.init 1 1 1 1 defaultParams,
   C3_convergence_flag E0 (Reachable.init 1 1 1 1 defaultParams)⟩

/-! ## Claim C1 -/

/-- Every entry that `step` appends to the efficiency trend is an efficiency
`harmony_static * P` of a freshly clamped state, hence lies in `[0, 1]`. -/
theorem step_trend_bounds (dt : ℝ) (e : Engine)
    (h : ∀ x ∈ e.efficiency_trend, 0 ≤ x ∧ x ≤ 1) :
    ∀ x ∈ (step dt e).efficiency_trend, 0 ≤ x ∧ x ≤ 1 := by
  rw [step_trend]
  intro x hx
  rcases List.mem_append.mp hx with h1 | h2
  · exact h x h1
  · rw [List.mem_singleton] at h2
    subst h2
    have hb : InBounds (step dt e).state := by
      rw [step_state]
      exact mkCoords_inBounds _ _ _ _
    obtain ⟨-, -, -, -, hP0, hP1, -, -⟩ := hb
    constructor
    · exact mul_nonneg (harmony_static_nonneg _) hP0
    · exact mul_le_one₀ (harmony_static_le_one _) hP0 hP1

theorem stepN_trend_bounds (dt : ℝ) (n : ℕ) (e : Engine)
    (h : ∀ x ∈ e.efficiency_trend, 0 ≤ x ∧ x ≤ 1) :
    ∀ x ∈ (stepN dt n e).efficiency_trend, 0 ≤ x ∧ x ≤ 1 := by
  induction n with
  | zero => exact h
  | succ n ih =>
    rw [stepN_succ]
    exact step_trend_bounds dt _ ih

theorem foldl_max_le_one (xs : List ℝ) :
    ∀ init : ℝ, init ≤ 1 → (∀ x ∈ xs, x ≤ 1) → xs.foldl max init ≤ 1 := by
  induction xs with
  | nil =>
    intro init h _
    exact h
  | cons a t ih =>
    intro init h hall
    rw [List.foldl_cons]
    exact ih (max init a) (max_le h (hall a (by simp))) fun x hx => hall x (by simp [hx])

theorem pyMax_le_one (xs : List ℝ) (h : ∀ x ∈ xs, x ≤ 1) : pyMax xs ≤ 1 := by
  rw [pyMax]
  refine foldl_max_le_one xs _ ?_ h
  cases xs with
  | nil => norm_num
  | cons a t => exact h a (by simp)

theorem getLastD_le_one (xs : List ℝ) :
    ∀ d : ℝ, d ≤ 1 → (∀ x ∈ xs, x ≤ 1) → xs.getLastD d ≤ 1 := by
  induction xs with
  | nil =>
    intro d hd _
    simpa using hd
  | cons a t ih =>
    intro d hd h
    rw [List.getLastD_cons]
    exact ih a (h a (by simp)) fun x hx => h x (by simp [hx])

/-- The initial efficiency (= `best_efficiency` baseline of `self_improve`)
of the anchor engine is `1`. -/
theorem eff_E0 : calculate_efficiency E0 = 1 := by
  rw [calculate_efficiency]
  show harmony_static anchorC * anchorC.P = 1
  rw [harmony_static_anchorC, anchorC_P, one_mul]

/-- The live engine's parameters after `selfImproveIter` are the mutated
parameters (reference aliasing, see `selfImproveIter`). -/
theorem selfImproveIter_params (u : Fin 15 → ℝ) (live : Engine) (b : ℝ) :
    (selfImproveIter u live b).1.params = random_mutation live.params u := rfl

/-- The best-score bookkeeping of one `self_improve` iteration. -/
theorem selfImproveIter_snd (u : Fin 15 → ℝ) (live : Engine) (b : ℝ) :
    (selfImproveIter u live b).2 =
      if (stepN 0.1 10 (mkEngine live.state (random_mutation live.params u))).efficiency_trend.getLastD 0
            * 0.8 +
          pyMax (stepN 0.1 10 (mkEngine live.state (random_mutation live.params u))).efficiency_trend
            * 0.2 > b
      then (stepN 0.1 10 (mkEngine live.state (random_mutation live.params u))).efficiency_trend.getLastD 0
            * 0.8 +
          pyMax (stepN 0.1 10 (mkEngine live.state (random_mutation live.params u))).efficiency_trend
            * 0.2
      else b := rfl

/-- Claim C1 refutation (code bug): with the engine at the anchor state,
default parameters, `learning_rate = 0.05` and every uniform draw equal to
`+0.05` (an admissible draw), the first `self_improve` iteration is rejected —
its score cannot exceed the baseline `best_efficiency = 1` because every
rollout efficiency lies in `[0, 1]` — and yet the live engine's parameter
object changes (`alpha_LJ` goes from `0.12` to `0.126`): the scratch engine
aliases the live engine's `DynamicParameters` instead of deep-copying it, so
the rejected mutation still corrupts the live engine. -/
theorem C1_reject_still_mutates :
    (∀ k : Fin 15, -0.05 ≤ noiseAll k ∧ noiseAll k ≤ 0.05) ∧
    (selfImproveIter noiseAll E0 (calculate_efficiency E0)).2 = calculate_efficiency E0 ∧
    (selfImproveIter noiseAll E0 (calculate_efficiency E0)).1.params.alpha_LJ = 0.126 ∧
    E0.params.alpha_LJ = 0.12 ∧
    (selfImproveIter noiseAll E0 (calculate_efficiency E0)).1.params ≠ E0.params := by
  have halpha : (selfImproveIter noiseAll E0 (calculate_efficiency E0)).1.params.alpha_LJ
      = 0.126 := by
    rw [selfImproveIter_params]
    show mutate1 defaultParams.alpha_LJ (noiseAll 0) = 0.126
    rw [mutate1, if_pos (by norm_num [defaultParams] : (0 : ℝ) < defaultParams.alpha_LJ),
      max_eq_right (by norm_num [defaultParams, noiseAll])]
    norm_num [defaultParams, noiseAll]
  have hbase : E0.params.alpha_LJ = 0.12 := rfl
  refine ⟨fun k => ⟨by norm_num [noiseAll], by norm_num [noiseAll]⟩, ?_, halpha, hbase, ?_⟩
  · have hbounds : ∀ x ∈ (stepN 0.1 10
        (mkEngine E0.state (random_mutation E0.params noiseAll))).efficiency_trend,
        0 ≤ x ∧ x ≤ 1 := by
      refine stepN_trend_bounds 0.1 10 _ ?_
      intro x hx
      simp [mkEngine] at hx
    have hfinal : (stepN 0.1 10
        (mkEngine E0.state (random_mutation E0.params noiseAll))).efficiency_trend.getLastD 0
        ≤ 1 :=
      getLastD_le_one _ 0 (by norm_num) fun x hx => (hbounds x hx).2
    have hpeak : pyMax (stepN 0.1 10
        (mkEngine E0.state (random_mutation E0.params noiseAll))).efficiency_trend ≤ 1 :=
      pyMax_le_one _ fun x hx => (hbounds x hx).2
    rw [selfImproveIter_snd, if_neg]
    rw [eff_E0, gt_iff_lt, not_lt]
    linarith
  · intro hcontra
    have := congrArg DynamicParameters.alpha_LJ hcontra
    rw [halpha, hbase] at this
    norm_num at this

end LJPW
